import Mathlib

/-!
Shallow embedding of the `ferrors` error package and of `gcp.GetAccessToken`
from the helpers-go repository, together with theorems settling the spec
claims about them.

Conventions of the embedding:
* Go `error` values are `Option GoError`; `none` is Go's `nil` error.
* The three concrete shapes of the package (`fundamental`, `withFields`,
  `wrapped`) plus an arbitrary foreign Go error are the constructors of
  `GoError`.
* Captured call stacks (`callers()`) are opaque tokens; only their count and
  order matter to the claims.
* `ErrorCode` is Go's `uint32`-based enumeration, embedded as `Nat` with
  the gRPC code numbers.
* External library behaviour (`status.New`, `status.WithDetails`,
  `status.Convert`, proto `String()`) is embedded by its documented
  semantics, since those libraries are collaborators, not repository code.
-/

namespace Ferrors

/-- `ErrorCode` is a `uint32` wrapping a gRPC code number. -/
abbrev ErrorCode := Nat

/-- `codes.Unknown` -/
def Unknown : ErrorCode := 2

/-- `codes.InvalidArgument` -/
def InvalidArgument : ErrorCode := 3

/-- `codes.NotFound` -/
def NotFound : ErrorCode := 5

/-- `codes.AlreadyExists` -/
def AlreadyExists : ErrorCode := 6

/-- `codes.PermissionDenied` -/
def PermissionDenied : ErrorCode := 7

/-- `codes.FailedPrecondition` -/
def FailedPrecondition : ErrorCode := 9

/-- `codes.OutOfRange` -/
def OutOfRange : ErrorCode := 11

/-- `codes.Unimplemented` -/
def Unimplemented : ErrorCode := 12

/-- `codes.Internal` -/
def Internal : ErrorCode := 13

/-- `codes.Unavailable` -/
def Unavailable : ErrorCode := 14

/-- `codes.Unauthenticated` -/
def Unauthenticated : ErrorCode := 16

/-- `ErrorCode.String()` delegates to `codes.Code(e).String()` of grpc-go:
a fixed name for each known code, `Code(n)` otherwise. -/
def codeName (e : ErrorCode) : String :=
  if e = 0 then "OK"
  else if e = 1 then "Canceled"
  else if e = 2 then "Unknown"
  else if e = 3 then "InvalidArgument"
  else if e = 4 then "DeadlineExceeded"
  else if e = 5 then "NotFound"
  else if e = 6 then "AlreadyExists"
  else if e = 7 then "PermissionDenied"
  else if e = 8 then "ResourceExhausted"
  else if e = 9 then "FailedPrecondition"
  else if e = 10 then "Aborted"
  else if e = 11 then "OutOfRange"
  else if e = 12 then "Unimplemented"
  else if e = 13 then "Internal"
  else if e = 14 then "Unavailable"
  else if e = 15 then "DataLoss"
  else if e = 16 then "Unauthenticated"
  else "Code(" ++ toString e ++ ")"

/-- A captured call stack (`callers()`); opaque to every claim, only the
number and order of captures is observable. -/
abbrev Stack := Nat

/-- `callers()`: captures the stack at the call point. The content of the
capture is irrelevant to the claims, so it is a fixed token. -/
def callers : Stack := 0

/-- `Field` is the field that caused the error. -/
structure Field where
  name : String
  description : String
  deriving DecidableEq, Repr

/-- `ErrorDetail` wraps `errdetails.ErrorInfo`: a reason, a domain and
string-keyed metadata. -/
structure ErrorDetail where
  reason : String
  domain : String
  metadata : List (String × String)
  deriving DecidableEq, Repr

/-- `ErrorDetail.String()` delegates to the proto compact text form of
`errdetails.ErrorInfo`; embedded here as a simple faithful serialization
(the claims never inspect its content, only where it is placed). -/
def ErrorDetail.render (d : ErrorDetail) : String :=
  "reason:" ++ d.reason ++ " domain:" ++ d.domain

/-- A Go error value as the `ferrors` package can observe it: the three
concrete shapes of the package, or a foreign error that implements only
`Error() string`. -/
inductive GoError where
  | fundamental (code : ErrorCode) (detail : Option ErrorDetail)
      (msg : String) (stack : Stack)
  | withFields (code : ErrorCode) (detail : Option ErrorDetail)
      (msg : String) (stack : Stack) (fields : List Field)
  | wrapped (msgs : List String) (stks : List Stack) (cause : GoError)
  | foreign (msg : String)
  deriving DecidableEq, Repr

/-- Dynamic check `err.(Ferror)`: `*fundamental` and `*withFields` have
`Code`, `WithDetail` and `Error` methods and satisfy the interface;
`*wrapped` lacks a `WithDetail` method and a foreign error implements
none of them. -/
def isFerror : GoError → Bool
  | .fundamental _ _ _ _ => true
  | .withFields _ _ _ _ _ => true
  | .wrapped _ _ _ => false
  | .foreign _ => false

/-- Dynamic check `err.(*wrapped)`. -/
def isWrapped : GoError → Bool
  | .wrapped _ _ _ => true
  | _ => false

/-- The `Code()` method of the concrete shapes: `fundamental.Code` and the
promoted copy on `withFields` return the stored code; `wrapped.Code`
returns the cause's code when the cause satisfies `Ferror`, else
`Unknown`. A foreign error has no such method; the package never invokes
it there, the catch-all keeps the embedding total. -/
def methodCode : GoError → ErrorCode
  | .fundamental c _ _ _ => c
  | .withFields c _ _ _ _ => c
  | .wrapped _ _ cause => if isFerror cause then methodCode cause else Unknown
  | .foreign _ => Unknown

/-- Package-level `Code(err)`: the `err.(Ferror)` assertion followed by
`e.Code()`, defaulting to `Unknown`. -/
def Code : Option GoError → ErrorCode
  | none => Unknown
  | some e => if isFerror e then methodCode e else Unknown

/-- The `WithDetail` method of `fundamental` and `withFields`: stores the
detail in the single detail slot. The other shapes do not have the
method; the catch-all keeps the embedding total. -/
def withDetail : GoError → Option ErrorDetail → GoError
  | .fundamental c _ m s, d => .fundamental c d m s
  | .withFields c _ m s fs, d => .withFields c d m s fs
  | e, _ => e

/-- `New(message)`. -/
def New (message : String) : GoError :=
  .fundamental Unknown none message callers

/-- `WithCode(code, message, detail...)`: a fundamental with the first
supplied detail attached via `WithDetail` (or none). -/
def WithCode (code : ErrorCode) (message : String)
    (detail : List ErrorDetail) : GoError :=
  withDetail (.fundamental code none message callers) detail.head?

/-- `NewNotFoundError(msg)`. -/
def NewNotFoundError (msg : String) : GoError :=
  .fundamental NotFound none msg callers

/-- `NewInternalError(msg)`. -/
def NewInternalError (msg : String) : GoError :=
  .fundamental Internal none msg callers

/-- `NewPermissionDeniedError(msg)`. -/
def NewPermissionDeniedError (msg : String) : GoError :=
  .fundamental PermissionDenied none msg callers

/-- `NewUnauthenticatedError(msg)`. -/
def NewUnauthenticatedError (msg : String) : GoError :=
  .fundamental Unauthenticated none msg callers

/-- `NewInvalidArgumentError(msg, fields...)`. -/
def NewInvalidArgumentError (msg : String) (fields : List Field) : GoError :=
  .withFields InvalidArgument none msg callers fields

/-- `NewAlreadyExistsError(msg, fields...)`. -/
def NewAlreadyExistsError (msg : String) (fields : List Field) : GoError :=
  .withFields AlreadyExists none msg callers fields

/-- `NewOutOfRangeError(msg, fields...)`. -/
def NewOutOfRangeError (msg : String) (fields : List Field) : GoError :=
  .withFields OutOfRange none msg callers fields

/-- `Wrap(err, msg)`: nil stays nil; an already `*wrapped` error gets the
message and a fresh stack appended in place; any other error becomes a
new `wrapped` around it with one message and one stack. -/
def Wrap : Option GoError → String → Option GoError
  | none, _ => none
  | some (.wrapped msgs stks cause), msg =>
      some (.wrapped (msgs ++ [msg]) (stks ++ [callers]) cause)
  | some e, msg => some (.wrapped [msg] [callers] e)

/-- `Wrapf(err, format, args...)`: identical to `Wrap` after
`fmt.Sprintf`; the embedding receives the formatted message. -/
def Wrapf : Option GoError → String → Option GoError
  | none, _ => none
  | some (.wrapped msgs stks cause), msg =>
      some (.wrapped (msgs ++ [msg]) (stks ++ [callers]) cause)
  | some e, msg => some (.wrapped [msg] [callers] e)

/-- `WithStack(err)` (the spec's `AddStack`): nil stays nil; an already
`*wrapped` error gets one fresh stack appended; any other error becomes
a new `wrapped` with an empty message list and one stack. -/
def WithStack : Option GoError → Option GoError
  | none => none
  | some (.wrapped msgs stks cause) =>
      some (.wrapped msgs (stks ++ [callers]) cause)
  | some e => some (.wrapped [] [callers] e)

/-- The loop body of `Cause`: among the embedded shapes only `*wrapped`
implements `Cause() error`, so the loop strips `wrapped` layers and
stops at the first value that is not `wrapped`. -/
def causeRoot : GoError → GoError
  | .wrapped _ _ cause => causeRoot cause
  | e => e

/-- Package-level `Cause(err)`: nil in, nil out; otherwise unwrap through
every layer exposing `Cause() error` and return the root. -/
def Cause : Option GoError → Option GoError
  | none => none
  | some e => some (causeRoot e)

/-- `fundamental.Error()`: `(<CodeName>) <message>`, then the separator
`"\n-  "` and the detail's string when a detail is attached. -/
def fundamentalError (c : ErrorCode) (d : Option ErrorDetail)
    (m : String) : String :=
  "(" ++ codeName c ++ ") " ++ m ++
    (match d with
     | none => ""
     | some dd => "\n-  " ++ dd.render)

/-- `Error()` of every shape. `withFields.Error` renders the embedded
fundamental, then `"\n-  error fields:"` and one `"\n\t-  name: desc"`
line per field in input order, falling back to the fundamental rendering
when there are no fields. `wrapped.Error` writes each accumulated message
followed by `": "` and then the cause's own rendering. -/
def errorString : GoError → String
  | .fundamental c d m _ => fundamentalError c d m
  | .withFields c d m _ fields =>
      if fields.length > 0 then
        fundamentalError c d m ++ "\n-  error fields:" ++
          String.join (fields.map fun f =>
            "\n\t-  " ++ f.name ++ ": " ++ f.description)
      else
        fundamentalError c d m
  | .wrapped msgs _ cause =>
      if msgs.length > 0 then
        String.join (msgs.map fun m => m ++ ": ") ++ errorString cause
      else
        errorString cause
  | .foreign msg => msg

/-- `errdetails.BadRequest_FieldViolation`. -/
structure FieldViolation where
  fieldName : String
  description : String
  deriving DecidableEq, Repr

/-- `errdetails.PreconditionFailure_Violation` (the package sets only
subject and description). -/
structure PreconditionViolation where
  subject : String
  description : String
  deriving DecidableEq, Repr

/-- A structured detail object carried by a gRPC status: the shapes this
package ever attaches. -/
inductive StatusDetail where
  | errorInfo (d : ErrorDetail)
  | badRequest (violations : List FieldViolation)
  | preconditionFailure (violations : List PreconditionViolation)
  deriving DecidableEq, Repr

/-- A gRPC `*status.Status` as observable through code, message and
detail list. -/
structure Status where
  code : ErrorCode
  message : String
  details : List StatusDetail
  deriving DecidableEq, Repr

/-- `fundamental.GRPCStatus()`: `status.New(code, msg)`, with the stored
detail attached via `WithDetails` when present (`WithDetails` never fails
on these well-formed protos, so the panic branch is unreachable). -/
def fundamentalGRPCStatus (c : ErrorCode) (d : Option ErrorDetail)
    (m : String) : Status :=
  match d with
  | none => ⟨c, m, []⟩
  | some dd => ⟨c, m, [.errorInfo dd]⟩

/-- `withFields.GRPCStatus()`: `status.New(code, msg)`; for
`InvalidArgument` one `BadRequest` detail holding one field violation per
field in order (`Field` → violation field name, `Description` →
violation description); for `FailedPrecondition` one
`PreconditionFailure` detail the same way (name as subject); every other
code returns the bare status. The stored `Detail` is never attached. -/
def withFieldsGRPCStatus (c : ErrorCode) (m : String)
    (fields : List Field) : Status :=
  if c = InvalidArgument then
    ⟨c, m, [.badRequest (fields.map fun f => ⟨f.name, f.description⟩)]⟩
  else if c = FailedPrecondition then
    ⟨c, m,
      [.preconditionFailure (fields.map fun f => ⟨f.name, f.description⟩)]⟩
  else
    ⟨c, m, []⟩

/-- `status.Convert(err)` on a non-nil error: when the error implements
`GRPCStatus() *status.Status` (all three package shapes do) the method's
result; otherwise `status.New(codes.Unknown, err.Error())`. The
`wrapped.GRPCStatus()` method is itself `status.Convert(w.cause)`. -/
def grpcConvert : GoError → Status
  | .fundamental c d m _ => fundamentalGRPCStatus c d m
  | .withFields c _ m _ fields => withFieldsGRPCStatus c m fields
  | .wrapped _ _ cause => grpcConvert cause
  | .foreign msg => ⟨Unknown, errorString (.foreign msg), []⟩

/-- Fold `Wrap` over a list of context messages, oldest message first:
`wrapAll e [m1, ..., mN]` is `Wrap(...Wrap(e, m1)..., mN)`. -/
def wrapAll (e : Option GoError) (msgs : List String) : Option GoError :=
  msgs.foldl Wrap e

end Ferrors

namespace Gcp

/-- An `oauth2.Token`, reduced to the two fields the package reads. -/
structure Token where
  tokenType : String
  accessToken : String
  deriving DecidableEq, Repr

/-- `gcp.GetTokenStruct(ctx, scopes...)`: calls
`google.FindDefaultCredentials` and then `credentials.TokenSource.Token()`,
propagating either failure. The two external calls are parameters of the
embedding (`α` stands for `*google.Credentials`). -/
def GetTokenStruct {α : Type} (findDefaultCredentials : Except String α)
    (tokenSourceToken : α → Except String Token) : Except String Token :=
  match findDefaultCredentials with
  | .error e => .error e
  | .ok credentials =>
      match tokenSourceToken credentials with
      | .error e => .error e
      | .ok token => .ok token

/-- `gcp.GetAccessToken(ctx, scopes...)`: on a `GetTokenStruct` failure
returns `("", nil)`; on success `(token.AccessToken, nil)`. The second
component is the returned Go error (`none` is nil). -/
def GetAccessToken {α : Type} (findDefaultCredentials : Except String α)
    (tokenSourceToken : α → Except String Token) : String × Option String :=
  match GetTokenStruct findDefaultCredentials tokenSourceToken with
  | .error _ => ("", none)
  | .ok token => (token.accessToken, none)

end Gcp

namespace Ferrors

/-- C4: `Wrap`, `Wrapf` and `WithStack` (the spec's `AddStack`) all map a
nil error to nil: wrapping a nil error is a no-op and never fabricates an
error value. -/
theorem claim4_nil_wrapping_noop :
    (∀ m : String, Wrap none m = none) ∧
    (∀ m : String, Wrapf none m = none) ∧
    WithStack none = none :=
  ⟨fun _ => rfl, fun _ => rfl, rfl⟩

/-- C9: the package-level `Code` returns `Unknown` for a nil error and for
every foreign error that does not implement the `Ferror` contract (and,
being total, it cannot panic on them). -/
theorem claim9_code_unknown_for_foreign :
    Code none = Unknown ∧
    ∀ msg : String, Code (some (.foreign msg)) = Unknown :=
  ⟨rfl, fun _ => rfl⟩

/-- C7: the wire-status conversion of a `wrapped` error equals the
wire-status conversion of its cause, whatever messages and stacks the
wrap accumulated: they are not visible in the resulting status. -/
theorem claim7_wrapped_status_delegates :
    ∀ (msgs : List String) (stks : List Stack) (cause : GoError),
      grpcConvert (.wrapped msgs stks cause) = grpcConvert cause := by
  intro msgs stks cause
  simp [grpcConvert]

/-- C5: `Cause` of a wrap of `e` reaches the same root as `Cause` of `e`
itself; `Cause nil = nil`; and the root returned by `Cause` exposes no
further cause relation (it is never a `wrapped` value). -/
theorem claim5_cause_stable_under_wrap :
    (∀ (e : GoError) (m : String), Cause (Wrap (some e) m) = Cause (some e)) ∧
    Cause none = none ∧
    (∀ e : GoError, isWrapped (causeRoot e) = false) := by
  refine ⟨?_, rfl, ?_⟩
  · intro e m
    cases e <;> simp [Wrap, Cause, causeRoot]
  · intro e
    induction e with
    | wrapped msgs stks cause ih => simpa [causeRoot] using ih
    | fundamental c d m s => simp [causeRoot, isWrapped]
    | withFields c d m s fs => simp [causeRoot, isWrapped]
    | foreign m => simp [causeRoot, isWrapped]

/-- C1: wrapping `NewNotFoundError "x"` once already changes the code seen
through the package-level `Code` function: the result is a `wrapped`
value whose own `Code()` method would return `NotFound`, but which does
not satisfy the `Ferror` interface (it lacks `WithDetail`), so
`Code(Wrap(NewNotFoundError("x"), "ctx"))` is `Unknown`, not `NotFound`. -/
theorem claim1_wrap_drops_code_through_package_Code :
    ∃ w : GoError,
      Wrap (some (NewNotFoundError "x")) "ctx" = some w ∧
      methodCode w = NotFound ∧
      isFerror w = false ∧
      Code (some w) = Unknown ∧
      Unknown ≠ NotFound := by
  refine ⟨.wrapped ["ctx"] [callers] (NewNotFoundError "x"), rfl, ?_, rfl, rfl, by decide⟩
  simp [methodCode, NewNotFoundError, isFerror]

/-- C2 counterexample: a `withFields` error (code `InvalidArgument`) with
an `ErrorDetail` attached via `WithDetail` whose wire status does not
contain that detail — `withFields.GRPCStatus` never attaches the stored
detail, refuting the claim for the WithFields shape. -/
theorem claim2_withFields_detail_missing_cex :
    StatusDetail.errorInfo ⟨"EMAIL_ALREADY_EXISTS", "example.com", []⟩ ∉
      (grpcConvert (withDetail
        (NewInvalidArgumentError "bad" [⟨"email", "required"⟩])
        (some ⟨"EMAIL_ALREADY_EXISTS", "example.com", []⟩))).details := by
  decide

/-- C2 amended: a `fundamental` error of any code with a detail attached
via `WithDetail` carries that detail (and nothing else) in its wire
status; a `withFields` error never carries the attached `ErrorDetail` in
its wire status, whatever its code. -/
theorem claim2_detail_attachment_amended :
    (∀ (c : ErrorCode) (m : String) (s : Stack) (d : ErrorDetail),
      (grpcConvert (withDetail (.fundamental c none m s) (some d))).details
        = [.errorInfo d]) ∧
    (∀ (c : ErrorCode) (m : String) (s : Stack) (fs : List Field)
        (d : ErrorDetail),
      StatusDetail.errorInfo d ∉
        (grpcConvert (withDetail (.withFields c none m s fs) (some d))).details) := by
  constructor
  · intro c m s d
    simp [withDetail, grpcConvert, fundamentalGRPCStatus]
  · intro c m s fs d
    simp only [withDetail, grpcConvert, withFieldsGRPCStatus,
      InvalidArgument, FailedPrecondition]
    by_cases h1 : c = 3 <;> by_cases h2 : c = 9 <;> simp [h1, h2]

/-- C6: the wire status of `NewInvalidArgumentError` has code
`InvalidArgument`, the raw message, and exactly one bad-request detail
holding one violation per supplied field in input order, each violation
taking its field name and description from the supplied `Field`; in
particular for the field `email: required`. -/
theorem claim6_invalid_argument_status :
    (∀ (m : String) (fields : List Field),
      grpcConvert (NewInvalidArgumentError m fields)
        = ⟨InvalidArgument, m,
            [.badRequest (fields.map fun f => ⟨f.name, f.description⟩)]⟩) ∧
    grpcConvert (NewInvalidArgumentError "bad" [⟨"email", "required"⟩])
      = ⟨InvalidArgument, "bad", [.badRequest [⟨"email", "required"⟩]]⟩ := by
  constructor
  · intro m fields
    simp [NewInvalidArgumentError, grpcConvert, withFieldsGRPCStatus]
  · simp [NewInvalidArgumentError, grpcConvert, withFieldsGRPCStatus]

/-- Folding `Wrap` over further messages on a value that is already
`wrapped` appends every message and one fresh stack per message onto the
same flat value. -/
theorem wrapAll_on_wrapped (rest : List String) :
    ∀ (msgs : List String) (stks : List Stack) (cause : GoError),
      wrapAll (some (.wrapped msgs stks cause)) rest
        = some (.wrapped (msgs ++ rest)
            (stks ++ rest.map fun _ => callers) cause) := by
  induction rest with
  | nil => intro msgs stks cause; simp [wrapAll]
  | cons m rest ih =>
      intro msgs stks cause
      rw [show wrapAll (some (GoError.wrapped msgs stks cause)) (m :: rest)
            = wrapAll (some (GoError.wrapped (msgs ++ [m])
                (stks ++ [callers]) cause)) rest from rfl,
          ih]
      simp

/-- C3: wrapping a non-nil, non-`wrapped` error `N ≥ 1` times produces a
single flat `wrapped` value whose cause is the original error, whose
message list is exactly the `N` supplied messages in order and whose
stack list has exactly `N` entries; and a further `Wrap` or `WithStack`
on an already-`wrapped` value appends to that same value instead of
nesting. -/
theorem claim3_wrap_accumulates_flat :
    (∀ (e : GoError) (msgs : List String),
      isWrapped e = false → msgs ≠ [] →
      wrapAll (some e) msgs
        = some (.wrapped msgs (msgs.map fun _ => callers) e) ∧
      (msgs.map fun _ => callers).length = msgs.length) ∧
    (∀ (msgs : List String) (stks : List Stack) (cause : GoError)
        (m : String),
      Wrap (some (.wrapped msgs stks cause)) m
        = some (.wrapped (msgs ++ [m]) (stks ++ [callers]) cause)) ∧
    (∀ (msgs : List String) (stks : List Stack) (cause : GoError),
      WithStack (some (.wrapped msgs stks cause))
        = some (.wrapped msgs (stks ++ [callers]) cause)) := by
  refine ⟨?_, fun _ _ _ _ => rfl, fun _ _ _ => rfl⟩
  intro e msgs he hm
  cases msgs with
  | nil => exact absurd rfl hm
  | cons m rest =>
      have h1 : Wrap (some e) m = some (.wrapped [m] [callers] e) := by
        cases e with
        | wrapped a b c => simp [isWrapped] at he
        | fundamental c d mm s => rfl
        | withFields c d mm s fs => rfl
        | foreign mm => rfl
      refine ⟨?_, by simp⟩
      rw [show wrapAll (some e) (m :: rest) = wrapAll (Wrap (some e) m) rest
            from rfl,
          h1, wrapAll_on_wrapped]
      simp

/-- C3 witness: two wraps on a fresh `NotFound` fundamental give one flat
`wrapped` with both messages and two stacks. -/
theorem claim3_wrap_accumulates_flat_witness :
    wrapAll (some (NewNotFoundError "x")) ["a", "b"]
      = some (.wrapped ["a", "b"]
          ((["a", "b"].map fun _ => callers)) (NewNotFoundError "x")) ∧
    ((["a", "b"].map fun _ => callers)).length = ["a", "b"].length :=
  claim3_wrap_accumulates_flat.1 (NewNotFoundError "x") ["a", "b"]
    (by decide) (by decide)

/-- C8: a fundamental renders as `(<CodeName>) <message>` with the detail
string appended after `"\n-  "` when present; a withFields rendering is
the fundamental rendering followed, when fields exist, by
`"\n-  error fields:"` and one `"\n\t-  name: description"` entry per
field in input order; at the claim's example the full rendered string. -/
theorem claim8_error_rendering :
    (∀ (c : ErrorCode) (m : String) (s : Stack) (d : Option ErrorDetail),
      errorString (.fundamental c d m s)
        = "(" ++ codeName c ++ ") " ++ m ++
            (match d with
             | none => ""
             | some dd => "\n-  " ++ dd.render)) ∧
    (∀ (c : ErrorCode) (m : String) (s : Stack) (d : Option ErrorDetail)
        (fs : List Field),
      errorString (.withFields c d m s fs)
        = errorString (.fundamental c d m s) ++
            (if fs.length > 0 then
              "\n-  error fields:" ++
                String.join (fs.map fun f =>
                  "\n\t-  " ++ f.name ++ ": " ++ f.description)
             else "")) ∧
    errorString (NewInvalidArgumentError "bad" [⟨"email", "required"⟩])
      = "(InvalidArgument) bad\n-  error fields:\n\t-  email: required" := by
  refine ⟨fun c m s d => rfl, ?_, by decide⟩
  intro c m s d fs
  cases fs with
  | nil => simp [errorString]
  | cons f rest => simp [errorString, String.append_assoc]

end Ferrors

namespace Gcp

/-- C10: `GetAccessToken` returns a nil error on every outcome of the
underlying token retrieval; in particular, when credential lookup or the
token source fails it returns the empty string with a nil error, so the
failure is indistinguishable from success through the returned error. -/
theorem claim10_get_access_token_swallows_error :
    (∀ {α : Type} (fdc : Except String α)
        (tok : α → Except String Token),
      (GetAccessToken fdc tok).2 = none) ∧
    (∀ {α : Type} (msg : String) (tok : α → Except String Token),
      GetAccessToken (Except.error (α := α) msg) tok = ("", none)) ∧
    (∀ {α : Type} (a : α) (msg : String),
      GetAccessToken (Except.ok a)
        (fun _ => Except.error msg) = ("", none)) := by
  refine ⟨?_, fun _ _ => rfl, fun _ _ => rfl⟩
  intro α fdc tok
  cases h : GetTokenStruct fdc tok with
  | error e => simp [GetAccessToken, h]
  | ok t => simp [GetAccessToken, h]

end Gcp
